import Mathlib

/-!
Shallow embedding of the JWT/RBAC core of `jwt-rbac-cors-app`:
the token service (`GenerateToken`, `ValidateToken`, `RefreshToken` in the
`auth` package) and the access middleware (`RequireAuth`, `RequireRole`,
`RequireAnyRole`).

Modelling conventions:
* Wall-clock time is an explicit `Int` parameter in seconds (`time.Now()`
  becomes the `now` argument; `jwt.NewNumericDate` truncates to seconds).
* A serialized token string is modelled by `TokenWire`: either a structurally
  well-formed signed token (algorithm header, claims payload, signature) or an
  undecodable blob.  Serialization is a bijection between `TokenWire.signed`
  values and well-formed JWT strings, so we work with the structured form.
* The MAC is modelled by a concrete injective-by-construction string function
  `hmacSig`; no proof below relies on collision resistance, only on equality
  checks, exactly as the source compares a recomputed MAC with the token's.
* Token validation follows golang-jwt v5 as used by the source: the keyfunc
  rejects non-HMAC algorithms, then the signature is verified, then the claims
  validator checks `now < exp` (strict) and `nbf ≤ now`;  `iat` is not checked
  (the source does not pass `jwt.WithIssuedAt()`).  Claim-validation failures
  are joined, so validation errors are lists of kinds.
* `http.HandlerFunc` becomes `Handler : Request → Response`; Go's per-request
  `context.Context` carrying the three typed keys `UserIDKey`, `UserEmailKey`,
  `UserRolesKey` becomes a record of three `Option` fields (the keys are
  distinct typed constants, so a stored `[]string` either is present or the
  type assertion fails; `none` models both absence and a failed assertion).
* The middleware object holds the injected `jwtService` only through the one
  operation it calls, `ValidateToken : string → (Claims, error)`, modelled as
  a function `String → Except (List TokenErrKind) Claims`.
-/

/-- Signing algorithm identifier carried in a token's header.  `HS256` is what
`GenerateToken` uses; the others let us model algorithm-substitution inputs.
`RS256` and `algNone` stand for the non-HMAC methods the keyfunc rejects. -/
inductive Alg where
  | HS256
  | HS384
  | HS512
  | RS256
  | algNone
deriving DecidableEq, Repr

/-- Whether the signing method is an instance of `jwt.SigningMethodHMAC`
(the check performed by the keyfunc in `ValidateToken`). -/
def Alg.isHMAC : Alg → Bool
  | .HS256 => true
  | .HS384 => true
  | .HS512 => true
  | .RS256 => false
  | .algNone => false

/-- Claims embedded in a token: the three custom fields plus the registered
claims the source sets (`ExpiresAt`, `IssuedAt`, `NotBefore`, `Issuer`,
`Subject`).  Timestamps are seconds. -/
structure Claims where
  UserID : Int
  Email : String
  Roles : List String
  ExpiresAt : Int
  IssuedAt : Int
  NotBefore : Int
  Issuer : String
  Subject : String
deriving DecidableEq, Repr

/-- Principal, restricted to the fields the token core reads
(`models.User.ID`, `.Email`, `.Roles`). -/
structure User where
  ID : Int
  Email : String
  Roles : List String
deriving DecidableEq, Repr

/-- Name of an algorithm as written in the token header. -/
def Alg.name : Alg → String
  | .HS256 => "HS256"
  | .HS384 => "HS384"
  | .HS512 => "HS512"
  | .RS256 => "RS256"
  | .algNone => "none"

/-- Canonical payload encoding of a claims record, used as MAC input. -/
def encodeClaims (c : Claims) : String :=
  toString c.UserID ++ "|" ++ c.Email ++ "|" ++ String.intercalate "," c.Roles
    ++ "|" ++ toString c.ExpiresAt ++ "|" ++ toString c.IssuedAt
    ++ "|" ++ toString c.NotBefore ++ "|" ++ c.Issuer ++ "|" ++ c.Subject

/-- Concrete stand-in for HMAC over header+payload under the shared secret.
Validation only ever compares a stored signature with a recomputed one, so a
concrete injective-by-construction function is a faithful model. -/
def hmacSig (secret : String) (alg : Alg) (c : Claims) : String :=
  "mac:" ++ alg.name ++ ":" ++ secret ++ ":" ++ encodeClaims c

/-- Serialized token string: either a structurally well-formed signed token or
a blob that fails JWT decoding. -/
inductive TokenWire where
  | malformed (raw : String)
  | signed (alg : Alg) (claims : Claims) (sig : String)
deriving DecidableEq, Repr

/-- Issuer claim of a wire token, when it has one. -/
def TokenWire.issuer : TokenWire → Option String
  | .malformed _ => none
  | .signed _ c _ => some c.Issuer

/-- Validation failure kinds of golang-jwt v5 as they arise for this service:
decode failure, keyfunc rejection of a non-HMAC method, signature mismatch,
and the two claim-window failures. -/
inductive TokenErrKind where
  | tokenMalformed
  | unexpectedSigningMethod
  | signatureInvalid
  | tokenExpired
  | tokenNotYetValid
deriving DecidableEq, Repr

/-- Claim-window validator of golang-jwt v5 with zero leeway: valid iff
`now < ExpiresAt` and `NotBefore ≤ now`; both failures are reported when both
occur (the library joins them).  `IssuedAt` is not checked because the source
does not opt in with `jwt.WithIssuedAt()`. -/
def claimsValidationErrs (now : Int) (c : Claims) : List TokenErrKind :=
  (if now < c.ExpiresAt then [] else [.tokenExpired])
    ++ (if now < c.NotBefore then [.tokenNotYetValid] else [])

/-- The token service: holds only the signing secret. -/
structure JWTService where
  secret : String
deriving DecidableEq, Repr

/-- Embedding of `JWTService.GenerateToken`: builds claims with
`exp = now + 24h`, `iat = nbf = now`, issuer `"goapp"`,
subject `"user_<id>"`, and signs them with HS256.  (With an HMAC method and a
byte-slice key, `SignedString` cannot fail, so the result is total.) -/
def JWTService.GenerateToken (j : JWTService) (now : Int) (user : User) : TokenWire :=
  let claims : Claims :=
    { UserID := user.ID
      Email := user.Email
      Roles := user.Roles
      ExpiresAt := now + 24 * 3600
      IssuedAt := now
      NotBefore := now
      Issuer := "goapp"
      Subject := "user_" ++ toString user.ID }
  .signed .HS256 claims (hmacSig j.secret .HS256 claims)

/-- Embedding of `JWTService.ValidateToken` (via `jwt.ParseWithClaims`):
decode, keyfunc algorithm check, signature check, then claim-window
validation, in the order golang-jwt v5 performs them. -/
def JWTService.ValidateToken (j : JWTService) (now : Int) :
    TokenWire → Except (List TokenErrKind) Claims
  | .malformed _ => .error [.tokenMalformed]
  | .signed alg claims sig =>
    if alg.isHMAC then
      if sig = hmacSig j.secret alg claims then
        match claimsValidationErrs now claims with
        | [] => .ok claims
        | errs => .error errs
      else .error [.signatureInvalid]
    else .error [.unexpectedSigningMethod]

/-- Refresh failure: either the input token failed validation (wrapped) or it
is too old to refresh. -/
inductive RefreshErr where
  | cannotRefreshInvalid (errs : List TokenErrKind)
  | tokenTooOldToRefresh
deriving DecidableEq, Repr

/-- Embedding of `JWTService.RefreshToken`: validate the old token, reject it
when `time.Since(claims.IssuedAt) > 7*24h`, otherwise sign fresh claims with
the same identity fields, `exp = now + 24h`, `iat = nbf = now`, and issuer
`"auth-app"`. -/
def JWTService.RefreshToken (j : JWTService) (now : Int) (oldToken : TokenWire) :
    Except RefreshErr TokenWire :=
  match j.ValidateToken now oldToken with
  | .error es => .error (.cannotRefreshInvalid es)
  | .ok claims =>
    if 7 * 24 * 3600 < now - claims.IssuedAt then .error .tokenTooOldToRefresh
    else
      let newClaims : Claims :=
        { UserID := claims.UserID
          Email := claims.Email
          Roles := claims.Roles
          ExpiresAt := now + 24 * 3600
          IssuedAt := now
          NotBefore := now
          Issuer := "auth-app"
          Subject := claims.Subject }
      .ok (.signed .HS256 newClaims (hmacSig j.secret .HS256 newClaims))

/-- Iterated refresh: applies `RefreshToken` at each listed time in order,
feeding each new token into the next call.  Used to reason about
continuously-refreshed sessions. -/
def refreshChain (j : JWTService) (times : List Int) (w : TokenWire) :
    Except RefreshErr TokenWire :=
  match times with
  | [] => .ok w
  | t :: ts =>
    match j.RefreshToken t w with
    | .ok w2 => refreshChain j ts w2
    | .error e => .error e

/-- Example service instance used by concrete witnesses. -/
def jEx : JWTService := { secret := "hunter2" }

/-- Example principal used by concrete witnesses. -/
def uEx : User := { ID := 1, Email := "a@example.com", Roles := ["user", "admin"] }

/-- Per-request identity context: the three values the middleware stores under
its typed context keys (`UserIDKey`, `UserEmailKey`, `UserRolesKey`).  A field
is `none` when the key is absent (equivalently, when the Go type assertion on
the stored value would fail, which for these distinct typed keys coincides
with absence). -/
structure Ctx where
  userID : Option Int := none
  email : Option String := none
  roles : Option (List String) := none
deriving DecidableEq, Repr

/-- Inbound request, restricted to what the guards read: the `Authorization`
header (`none` when absent; `http.Header.Get` then returns `""`) and the
request context. -/
structure Request where
  authHeader : Option String := none
  ctx : Ctx := {}
deriving DecidableEq, Repr

/-- Result of `r.Header.Get("Authorization")`. -/
def Request.headerGet (r : Request) : String := r.authHeader.getD ""

/-- Response written by a handler: an `http.Error` with a status code, or a
normal response produced by the wrapped operation. -/
inductive Response where
  | httpError (status : Nat) (body : String)
  | ok (body : String)
deriving DecidableEq, Repr

/-- Embedding of `http.HandlerFunc` for this pure core. -/
def Handler : Type := Request → Response

/-- The middleware object.  The source holds a `*JWTService` and calls exactly
one operation on it, `ValidateToken(tokenString string) (*Claims, error)`;
that operation is carried here as a function on the credential string. -/
structure Middleware where
  validate : String → Except (List TokenErrKind) Claims

/-- Helper for `stringsSplitSpace`, recursing over the characters. -/
def splitSpaceChars : List Char → List String
  | [] => [""]
  | c :: cs =>
    if c = ' ' then "" :: splitSpaceChars cs
    else
      match splitSpaceChars cs with
      | [] => [String.singleton c]
      | w :: ws => (String.singleton c ++ w) :: ws

/-- Embedding of Go `strings.Split(s, " ")`: the substrings of `s` around
every occurrence of the single space character (so `""` maps to `[""]`, and
adjacent or leading/trailing spaces produce empty fields), matching the
parsing in `RequireAuth`. -/
def stringsSplitSpace (s : String) : List String := splitSpaceChars s.data

/-- Context population performed by `RequireAuth` on success: stores
`claims.UserID`, `claims.Email`, `claims.Roles` under the three keys. -/
def Request.withAuthCtx (r : Request) (claims : Claims) : Request :=
  { r with ctx := { userID := some claims.UserID
                    email := some claims.Email
                    roles := some claims.Roles } }

/-- Embedding of `Middleware.RequireAuth`: 401 when the header is absent,
401 when `strings.Split(header, " ")` is not `[Bearer, credential]`, 401 when
validation fails, and otherwise the wrapped handler on the request with the
populated context. -/
def Middleware.RequireAuth (m : Middleware) (next : Handler) : Handler := fun r =>
  if r.headerGet = "" then .httpError 401 "Authorization header required"
  else
    match stringsSplitSpace r.headerGet with
    | [scheme, tokenString] =>
      if scheme = "Bearer" then
        match m.validate tokenString with
        | .ok claims => next (r.withAuthCtx claims)
        | .error _ => .httpError 401 "Invalid or expired token"
      else .httpError 401 "Invalid authorization header format"
    | _ => .httpError 401 "Invalid authorization header format"

/-- Linear scan of the user's roles for the required role (the `hasRole` loop
in `RequireRole`). -/
def hasRole : List String → String → Bool
  | [], _ => false
  | userRole :: rest, role => if userRole = role then true else hasRole rest role

/-- Inner loop of `RequireAnyRole`: does `userRole` match any allowed role. -/
def matchesAny (userRole : String) : List String → Bool
  | [] => false
  | allowedRole :: rest => if userRole = allowedRole then true else matchesAny userRole rest

/-- Outer loop of `RequireAnyRole`: does any user role match any allowed
role. -/
def hasAnyRole : List String → List String → Bool
  | [], _ => false
  | userRole :: rest, allowedRoles =>
    if matchesAny userRole allowedRoles then true else hasAnyRole rest allowedRoles

/-- Body of the handler `RequireRole` wraps in `RequireAuth`: read the roles
from the context (500 when the typed value is unavailable), 403 when the
required role is missing, otherwise the wrapped handler unchanged. -/
def roleCheck (role : String) (next : Handler) : Handler := fun r =>
  match r.ctx.roles with
  | none => .httpError 500 "Unable to verify user roles"
  | some roles =>
    if hasRole roles role then next r
    else .httpError 403 "Insufficient permissions"

/-- Embedding of `Middleware.RequireRole role`: `RequireAuth` around the role
check. -/
def Middleware.RequireRole (m : Middleware) (role : String) (next : Handler) : Handler :=
  m.RequireAuth (roleCheck role next)

/-- Body of the handler `RequireAnyRole` wraps in `RequireAuth`. -/
def anyRoleCheck (allowedRoles : List String) (next : Handler) : Handler := fun r =>
  match r.ctx.roles with
  | none => .httpError 500 "Unable to verify user roles"
  | some roles =>
    if hasAnyRole roles allowedRoles then next r
    else .httpError 403 "Insufficient permissions"

/-- Embedding of `Middleware.RequireAnyRole allowedRoles`: `RequireAuth`
around the any-of-roles check. -/
def Middleware.RequireAnyRole (m : Middleware) (allowedRoles : List String)
    (next : Handler) : Handler :=
  m.RequireAuth (anyRoleCheck allowedRoles next)

/-- Example claims record used by concrete witnesses. -/
def cEx : Claims :=
  { UserID := 1
    Email := "a@example.com"
    Roles := ["user", "admin"]
    ExpiresAt := 24 * 3600
    IssuedAt := 0
    NotBefore := 0
    Issuer := "goapp"
    Subject := "user_1" }

/-- Example middleware used by concrete witnesses: exactly one credential
string validates, to the claims of `cEx`. -/
def mEx : Middleware :=
  { validate := fun s => if s = "tok" then .ok cEx else .error [.tokenMalformed] }

/-- Crafted claims used by a witness: correctly signable, with an issue date
far before the expiry, so that validation succeeds while the refresh window is
exceeded. -/
def cCrafted : Claims :=
  { UserID := 2
    Email := "b@example.com"
    Roles := ["user"]
    ExpiresAt := 1000000000
    IssuedAt := 0
    NotBefore := 0
    Issuer := "goapp"
    Subject := "user_2" }

theorem hasRole_iff (rs : List String) (role : String) :
    hasRole rs role = true ↔ role ∈ rs := by
  induction rs with
  | nil => simp [hasRole]
  | cons a t ih =>
    unfold hasRole
    by_cases h : a = role
    · subst h
      simp
    · have h2 : ¬ role = a := fun hh => h hh.symm
      simp [h, h2, ih]

theorem matchesAny_iff (x : String) (ys : List String) :
    matchesAny x ys = true ↔ x ∈ ys := by
  induction ys with
  | nil => simp [matchesAny]
  | cons a t ih =>
    unfold matchesAny
    by_cases h : x = a
    · subst h
      simp
    · simp [h, ih]

theorem hasAnyRole_iff (rs allowed : List String) :
    hasAnyRole rs allowed = true ↔ ∃ x, x ∈ rs ∧ x ∈ allowed := by
  induction rs with
  | nil => simp [hasAnyRole]
  | cons a t ih =>
    unfold hasAnyRole
    by_cases h : matchesAny a allowed = true
    · rw [if_pos h]
      constructor
      · intro _
        exact ⟨a, List.mem_cons_self a t, (matchesAny_iff a allowed).mp h⟩
      · intro _
        rfl
    · rw [if_neg h, ih]
      constructor
      · rintro ⟨x, hx, hx2⟩
        exact ⟨x, List.mem_cons_of_mem a hx, hx2⟩
      · rintro ⟨x, hx, hx2⟩
        rcases List.mem_cons.mp hx with rfl | hx3
        · exact absurd ((matchesAny_iff x allowed).mpr hx2) h
        · exact ⟨x, hx3, hx2⟩

theorem splitSpace_two_ne_empty (s a b : String)
    (hs : stringsSplitSpace s = [a, b]) : ¬ s = "" := by
  intro h
  rw [h] at hs
  have h0 : stringsSplitSpace "" = [""] := rfl
  rw [h0] at hs
  simp at hs

theorem requireAuth_missing_header (m : Middleware) (next : Handler) (r : Request)
    (h : r.headerGet = "") :
    m.RequireAuth next r = .httpError 401 "Authorization header required" := by
  simp only [Middleware.RequireAuth]
  rw [if_pos h]

theorem requireAuth_not_two (m : Middleware) (next : Handler) (r : Request)
    (hne : ¬ r.headerGet = "") (parts : List String)
    (hs : stringsSplitSpace r.headerGet = parts) (hlen : parts.length ≠ 2) :
    m.RequireAuth next r = .httpError 401 "Invalid authorization header format" := by
  simp only [Middleware.RequireAuth]
  rw [if_neg hne, hs]
  rcases parts with _ | ⟨a, _ | ⟨b, _ | ⟨c, t⟩⟩⟩
  · rfl
  · rfl
  · simp at hlen
  · rfl

theorem requireAuth_bad_scheme (m : Middleware) (next : Handler) (r : Request)
    (scheme cred : String)
    (hs : stringsSplitSpace r.headerGet = [scheme, cred]) (hsch : ¬ scheme = "Bearer") :
    m.RequireAuth next r = .httpError 401 "Invalid authorization header format" := by
  have hne := splitSpace_two_ne_empty _ _ _ hs
  simp only [Middleware.RequireAuth]
  rw [if_neg hne, hs]
  simp [hsch]

theorem requireAuth_validate_err (m : Middleware) (next : Handler) (r : Request)
    (cred : String) (es : List TokenErrKind)
    (hs : stringsSplitSpace r.headerGet = ["Bearer", cred])
    (hv : m.validate cred = .error es) :
    m.RequireAuth next r = .httpError 401 "Invalid or expired token" := by
  have hne := splitSpace_two_ne_empty _ _ _ hs
  simp only [Middleware.RequireAuth]
  rw [if_neg hne, hs]
  simp [hv]

theorem requireAuth_validate_ok (m : Middleware) (next : Handler) (r : Request)
    (cred : String) (c : Claims)
    (hs : stringsSplitSpace r.headerGet = ["Bearer", cred])
    (hv : m.validate cred = .ok c) :
    m.RequireAuth next r = next (r.withAuthCtx c) := by
  have hne := splitSpace_two_ne_empty _ _ _ hs
  simp only [Middleware.RequireAuth]
  rw [if_neg hne, hs]
  simp [hv]

theorem validateToken_signed (j : JWTService) (now : Int) (alg : Alg) (c : Claims)
    (halg : alg.isHMAC = true) :
    j.ValidateToken now (.signed alg c (hmacSig j.secret alg c)) =
      match claimsValidationErrs now c with
      | [] => .ok c
      | errs => .error errs := by
  simp only [JWTService.ValidateToken, halg]
  simp

theorem claimsValidationErrs_eq_nil_iff (now : Int) (c : Claims) :
    claimsValidationErrs now c = [] ↔ (c.NotBefore ≤ now ∧ now < c.ExpiresAt) := by
  unfold claimsValidationErrs
  by_cases h2 : now < c.ExpiresAt
  · rw [if_pos h2]
    by_cases h1 : now < c.NotBefore
    · rw [if_pos h1]
      simp
      omega
    · rw [if_neg h1]
      simp
      omega
  · rw [if_neg h2]
    by_cases h1 : now < c.NotBefore
    · rw [if_pos h1]
      simp
      omega
    · rw [if_neg h1]
      simp
      omega

theorem validateToken_signed_error (j : JWTService) (now : Int) (alg : Alg) (c : Claims)
    (halg : alg.isHMAC = true) (hne : claimsValidationErrs now c ≠ []) :
    j.ValidateToken now (.signed alg c (hmacSig j.secret alg c)) =
      .error (claimsValidationErrs now c) := by
  cases h : claimsValidationErrs now c with
  | nil => exact absurd h hne
  | cons e es => rw [validateToken_signed j now alg c halg, h]

theorem tokenExpired_mem_errs (now : Int) (c : Claims) (h : c.ExpiresAt ≤ now) :
    TokenErrKind.tokenExpired ∈ claimsValidationErrs now c := by
  unfold claimsValidationErrs
  rw [if_neg (by omega)]
  simp

theorem notYetValid_mem_errs (now : Int) (c : Claims) (h : now < c.NotBefore) :
    TokenErrKind.tokenNotYetValid ∈ claimsValidationErrs now c := by
  unfold claimsValidationErrs
  rw [if_pos h]
  simp

/-- C1: for every principal with an id, email and role list, a token produced
by `GenerateToken` at time `t0` validates at any time `t` inside the 24-hour
validity window (`t0 ≤ t < t0 + 24h`, in particular at `t = t0`), returning
claims whose user id and email are the principal's and whose roles are the
principal's role list (here they are equal outright, hence equal as sets,
order-insensitively). -/
theorem generate_validate_round_trip (j : JWTService) (u : User) (t0 t : Int)
    (h1 : t0 ≤ t) (h2 : t < t0 + 24 * 3600) :
    ∃ c : Claims, j.ValidateToken t (j.GenerateToken t0 u) = .ok c
      ∧ c.UserID = u.ID ∧ c.Email = u.Email ∧ (∀ x, x ∈ c.Roles ↔ x ∈ u.Roles) := by
  refine ⟨{ UserID := u.ID, Email := u.Email, Roles := u.Roles,
            ExpiresAt := t0 + 24 * 3600, IssuedAt := t0, NotBefore := t0,
            Issuer := "goapp", Subject := "user_" ++ toString u.ID },
          ?_, rfl, rfl, fun x => Iff.rfl⟩
  unfold JWTService.GenerateToken
  rw [validateToken_signed j t .HS256 _ rfl,
    (claimsValidationErrs_eq_nil_iff t _).mpr ⟨h1, h2⟩]

/-- Witness for C1 at a concrete service, principal and time pair. -/
theorem generate_validate_round_trip_witness :
    (0 : Int) ≤ 100 ∧ (100 : Int) < 0 + 24 * 3600
      ∧ ∃ c : Claims, jEx.ValidateToken 100 (jEx.GenerateToken 0 uEx) = .ok c
          ∧ c.UserID = uEx.ID ∧ c.Email = uEx.Email
          ∧ (∀ x, x ∈ c.Roles ↔ x ∈ uEx.Roles) :=
  ⟨by decide, by decide, generate_validate_round_trip jEx uEx 0 100 (by decide) (by decide)⟩

/-- C4: a structurally well-formed token signed with an HMAC method and the
service secret validates at time `now` exactly when
`NotBefore ≤ now < ExpiresAt`; when `now ≥ ExpiresAt` (including exactly at
expiry) validation fails with the expired kind among its errors, and when
`now < NotBefore` it fails with the not-yet-valid kind. -/
theorem validate_window_boundary (j : JWTService) (now : Int) (alg : Alg) (c : Claims)
    (sig : String) (halg : alg.isHMAC = true) (hsig : sig = hmacSig j.secret alg c) :
    (j.ValidateToken now (.signed alg c sig) = .ok c
      ↔ (c.NotBefore ≤ now ∧ now < c.ExpiresAt))
    ∧ (c.ExpiresAt ≤ now → ∃ es, j.ValidateToken now (.signed alg c sig) = .error es
        ∧ TokenErrKind.tokenExpired ∈ es)
    ∧ (now < c.NotBefore → ∃ es, j.ValidateToken now (.signed alg c sig) = .error es
        ∧ TokenErrKind.tokenNotYetValid ∈ es) := by
  subst hsig
  refine ⟨⟨?_, ?_⟩, ?_, ?_⟩
  · intro hok
    by_contra hcon
    have hne : claimsValidationErrs now c ≠ [] := fun hnil =>
      hcon ((claimsValidationErrs_eq_nil_iff now c).mp hnil)
    rw [validateToken_signed_error j now alg c halg hne] at hok
    exact Except.noConfusion hok
  · intro hwin
    rw [validateToken_signed j now alg c halg,
      (claimsValidationErrs_eq_nil_iff now c).mpr hwin]
  · intro hexp
    refine ⟨claimsValidationErrs now c, ?_, tokenExpired_mem_errs now c hexp⟩
    apply validateToken_signed_error j now alg c halg
    intro hnil
    have := (claimsValidationErrs_eq_nil_iff now c).mp hnil
    omega
  · intro hnbf
    refine ⟨claimsValidationErrs now c, ?_, notYetValid_mem_errs now c hnbf⟩
    apply validateToken_signed_error j now alg c halg
    intro hnil
    have := (claimsValidationErrs_eq_nil_iff now c).mp hnil
    omega

/-- Witness for C4: a token valid on `[0, 86400)` validates at 100, fails
expired exactly at 86400, and fails not-yet-valid at -5. -/
theorem validate_window_boundary_witness :
    jEx.ValidateToken 100 (.signed .HS256 cEx (hmacSig jEx.secret .HS256 cEx)) = .ok cEx
    ∧ (∃ es, jEx.ValidateToken 86400 (.signed .HS256 cEx (hmacSig jEx.secret .HS256 cEx))
        = .error es ∧ TokenErrKind.tokenExpired ∈ es)
    ∧ (∃ es, jEx.ValidateToken (-5) (.signed .HS256 cEx (hmacSig jEx.secret .HS256 cEx))
        = .error es ∧ TokenErrKind.tokenNotYetValid ∈ es) := by
  refine ⟨?_, ?_, ?_⟩
  · exact (validate_window_boundary jEx 100 .HS256 cEx _ rfl rfl).1.mpr (by decide)
  · exact (validate_window_boundary jEx 86400 .HS256 cEx _ rfl rfl).2.1 (by decide)
  · exact (validate_window_boundary jEx (-5) .HS256 cEx _ rfl rfl).2.2 (by decide)

/-- C5: for a token that validates at `now`, a refresh at `now` fails with the
window-exceeded kind exactly when `now − IssuedAt` exceeds 7 days; when it is
at most 7 days the refresh succeeds and the new token expires 24 hours after
the refresh moment.  Any validation failure of the input is propagated as a
refresh failure wrapping the validation errors. -/
theorem refresh_window_spec (j : JWTService) (now : Int) (w : TokenWire) (c : Claims)
    (hv : j.ValidateToken now w = .ok c) :
    (7 * 24 * 3600 < now - c.IssuedAt →
      j.RefreshToken now w = .error .tokenTooOldToRefresh)
    ∧ (now - c.IssuedAt ≤ 7 * 24 * 3600 →
      ∃ c2 sig, j.RefreshToken now w = .ok (.signed .HS256 c2 sig)
        ∧ c2.ExpiresAt = now + 24 * 3600)
    ∧ (∀ w2 es, j.ValidateToken now w2 = .error es →
      j.RefreshToken now w2 = .error (.cannotRefreshInvalid es)) := by
  refine ⟨?_, ?_, ?_⟩
  · intro h
    simp only [JWTService.RefreshToken, hv]
    rw [if_pos h]
  · intro h
    have heq : j.RefreshToken now w = .ok (.signed .HS256
        { UserID := c.UserID, Email := c.Email, Roles := c.Roles,
          ExpiresAt := now + 24 * 3600, IssuedAt := now, NotBefore := now,
          Issuer := "auth-app", Subject := c.Subject }
        (hmacSig j.secret .HS256
          { UserID := c.UserID, Email := c.Email, Roles := c.Roles,
            ExpiresAt := now + 24 * 3600, IssuedAt := now, NotBefore := now,
            Issuer := "auth-app", Subject := c.Subject })) := by
      simp only [JWTService.RefreshToken, hv]
      rw [if_neg (by omega)]
    exact ⟨_, _, heq, rfl⟩
  · intro w2 es h
    simp only [JWTService.RefreshToken, h]

/-- Witness for C5: refreshing a one-hour-old token succeeds with a fresh
24-hour expiry. -/
theorem refresh_window_spec_witness :
    ∃ c2 sig, jEx.RefreshToken 3600 (jEx.GenerateToken 0 uEx) = .ok (.signed .HS256 c2 sig)
      ∧ c2.ExpiresAt = 3600 + 24 * 3600 :=
  (refresh_window_spec jEx 3600 (jEx.GenerateToken 0 uEx) cEx rfl).2.1 (by decide)

/-- C6: a successful refresh of a token whose claims are `c` yields a token
whose claims carry the same `UserID`, `Email`, `Roles` and `Subject` as `c`,
with `IssuedAt = NotBefore = now` and `ExpiresAt = now + 24h`.  (The embedding
is purely functional, so the input token and its claims are unchanged by
construction.) -/
theorem refresh_preserves_identity (j : JWTService) (now : Int) (w : TokenWire)
    (c : Claims) (hv : j.ValidateToken now w = .ok c)
    (hwin : now - c.IssuedAt ≤ 7 * 24 * 3600) :
    ∃ sig, j.RefreshToken now w = .ok (.signed .HS256
      { UserID := c.UserID, Email := c.Email, Roles := c.Roles,
        ExpiresAt := now + 24 * 3600, IssuedAt := now, NotBefore := now,
        Issuer := "auth-app", Subject := c.Subject } sig) := by
  have heq : j.RefreshToken now w = .ok (.signed .HS256
      { UserID := c.UserID, Email := c.Email, Roles := c.Roles,
        ExpiresAt := now + 24 * 3600, IssuedAt := now, NotBefore := now,
        Issuer := "auth-app", Subject := c.Subject }
      (hmacSig j.secret .HS256
        { UserID := c.UserID, Email := c.Email, Roles := c.Roles,
          ExpiresAt := now + 24 * 3600, IssuedAt := now, NotBefore := now,
          Issuer := "auth-app", Subject := c.Subject })) := by
    simp only [JWTService.RefreshToken, hv]
    rw [if_neg (by omega)]
  exact ⟨_, heq⟩

/-- Witness for C6 at a concrete token and refresh time. -/
theorem refresh_preserves_identity_witness :
    ∃ sig, jEx.RefreshToken 3600 (jEx.GenerateToken 0 uEx) = .ok (.signed .HS256
      { UserID := cEx.UserID, Email := cEx.Email, Roles := cEx.Roles,
        ExpiresAt := 3600 + 24 * 3600, IssuedAt := 3600, NotBefore := 3600,
        Issuer := "auth-app", Subject := cEx.Subject } sig) :=
  refresh_preserves_identity jEx 3600 (jEx.GenerateToken 0 uEx) cEx rfl (by decide)

/-- C7 counterexample: at a concrete principal and times, the token produced
by `GenerateToken` carries issuer `"goapp"` while the token produced by a
successful `RefreshToken` of it carries issuer `"auth-app"`, so the issuer of
the issued token does not equal the issuer of the refreshed token. -/
theorem issuer_mismatch_counterexample :
    ∃ w, jEx.RefreshToken 3600 (jEx.GenerateToken 0 uEx) = .ok w
      ∧ (jEx.GenerateToken 0 uEx).issuer = some "goapp"
      ∧ w.issuer = some "auth-app"
      ∧ (jEx.GenerateToken 0 uEx).issuer ≠ w.issuer := by
  refine ⟨_, rfl, rfl, rfl, ?_⟩
  intro h
  simp only [TokenWire.issuer] at h
  exact absurd (Option.some.injEq _ _ ▸ h) (by decide)

/-- C7 amended: each operation uses a fixed issuer string, but the two
operations disagree — `GenerateToken` always sets issuer `"goapp"` while every
token returned by a successful `RefreshToken` carries issuer `"auth-app"`. -/
theorem issuer_fixed_per_operation (j : JWTService) (now t : Int) (u : User)
    (w w2 : TokenWire) :
    (j.GenerateToken t u).issuer = some "goapp"
    ∧ (j.RefreshToken now w = .ok w2 → w2.issuer = some "auth-app") := by
  constructor
  · rfl
  · intro h
    cases hv : j.ValidateToken now w with
    | error es =>
      simp only [JWTService.RefreshToken, hv] at h
      simp at h
    | ok c =>
      simp only [JWTService.RefreshToken, hv] at h
      by_cases hw : 7 * 24 * 3600 < now - c.IssuedAt
      · rw [if_pos hw] at h
        simp at h
      · rw [if_neg hw] at h
        simp only [Except.ok.injEq] at h
        rw [← h]
        rfl

/-- Witness for C7's amended statement at a concrete refresh. -/
theorem issuer_fixed_per_operation_witness :
    ∃ w2, jEx.RefreshToken 3600 (jEx.GenerateToken 0 uEx) = .ok w2
      ∧ w2.issuer = some "auth-app" :=
  ⟨_, rfl, (issuer_fixed_per_operation jEx 3600 0 uEx (jEx.GenerateToken 0 uEx) _).2 rfl⟩

/-- C8 counterexample: a chain of eight successful refreshes, each within 24
hours and 7 days of the previous token's issuance, ends with a refresh
performed at 640000 s — more than 7 days (604800 s) after the original
issuance at time 0 — and that refresh succeeds instead of failing with the
window-exceeded kind. -/
theorem refresh_chain_counterexample :
    (7 * 24 * 3600 : Int) < 640000 - 0
    ∧ ∃ w, refreshChain jEx [80000, 160000, 240000, 320000, 400000, 480000, 560000, 640000]
        (jEx.GenerateToken 0 uEx) = .ok w :=
  ⟨by decide, ⟨_, rfl⟩⟩

/-- C8 amended: the 7-day refresh window is measured from the presented
token's own `IssuedAt` — which every successful refresh resets to the refresh
moment — not from the original issuance; a refresh fails with the
window-exceeded kind exactly when `now − IssuedAt` of the presented token
exceeds 7 days, so a continuously refreshed session can extend beyond 7 days
from original issuance. -/
theorem refresh_window_from_latest (j : JWTService) (now : Int) (w : TokenWire)
    (c : Claims) (hv : j.ValidateToken now w = .ok c) :
    (j.RefreshToken now w = .error .tokenTooOldToRefresh
      ↔ 7 * 24 * 3600 < now - c.IssuedAt)
    ∧ (∀ alg c2 sig, j.RefreshToken now w = .ok (.signed alg c2 sig) → c2.IssuedAt = now) := by
  constructor
  · constructor
    · intro h
      by_contra hcon
      simp only [JWTService.RefreshToken, hv] at h
      rw [if_neg hcon] at h
      simp at h
    · intro h
      simp only [JWTService.RefreshToken, hv]
      rw [if_pos h]
  · intro alg c2 sig h
    simp only [JWTService.RefreshToken, hv] at h
    by_cases hw : 7 * 24 * 3600 < now - c.IssuedAt
    · rw [if_pos hw] at h
      simp at h
    · rw [if_neg hw] at h
      simp only [Except.ok.injEq, TokenWire.signed.injEq] at h
      rw [← h.2.1]

/-- Witness for C8's amended statement: a correctly signed token whose
embedded `IssuedAt` lies more than 7 days in the past, while still inside its
validity window, validates but is refused refresh. -/
theorem refresh_window_from_latest_witness :
    jEx.RefreshToken 700000 (.signed .HS256 cCrafted (hmacSig jEx.secret .HS256 cCrafted))
      = .error .tokenTooOldToRefresh :=
  (refresh_window_from_latest jEx 700000
    (.signed .HS256 cCrafted (hmacSig jEx.secret .HS256 cCrafted)) cCrafted rfl).1.mpr
    (by decide)

/-- C2: the authentication guard answers 401 — with a result that does not
depend on the wrapped handler, so the wrapped operation is not invoked — when
the `Authorization` header is absent (`Header.Get` yields `""`), when
`strings.Split(header, " ")` does not give exactly two fields, when it gives
two fields whose first is not `"Bearer"`, and when validation of the
credential fails for any reason; only on successful validation does it invoke
the wrapped handler, on the request whose context carries the claims' user
id, email and roles. -/
theorem requireAuth_guard_spec (m : Middleware) (r : Request) :
    (r.headerGet = "" →
      ∀ next, m.RequireAuth next r = .httpError 401 "Authorization header required")
    ∧ (∀ parts, stringsSplitSpace r.headerGet = parts → parts.length ≠ 2 →
        ¬ r.headerGet = "" →
        ∀ next, m.RequireAuth next r = .httpError 401 "Invalid authorization header format")
    ∧ (∀ scheme cred, stringsSplitSpace r.headerGet = [scheme, cred] → ¬ scheme = "Bearer" →
        ∀ next, m.RequireAuth next r = .httpError 401 "Invalid authorization header format")
    ∧ (∀ cred es, stringsSplitSpace r.headerGet = ["Bearer", cred] →
        m.validate cred = .error es →
        ∀ next, m.RequireAuth next r = .httpError 401 "Invalid or expired token")
    ∧ (∀ cred c, stringsSplitSpace r.headerGet = ["Bearer", cred] →
        m.validate cred = .ok c →
        ∀ next, m.RequireAuth next r = next (r.withAuthCtx c)
          ∧ (r.withAuthCtx c).ctx
              = { userID := some c.UserID, email := some c.Email, roles := some c.Roles }) := by
  refine ⟨?_, ?_, ?_, ?_, ?_⟩
  · intro h next
    exact requireAuth_missing_header m next r h
  · intro parts hs hlen hne next
    exact requireAuth_not_two m next r hne parts hs hlen
  · intro scheme cred hs hsch next
    exact requireAuth_bad_scheme m next r scheme cred hs hsch
  · intro cred es hs hv next
    exact requireAuth_validate_err m next r cred es hs hv
  · intro cred c hs hv next
    exact ⟨requireAuth_validate_ok m next r cred c hs hv, rfl⟩

/-- Witness for C2: one concrete request per branch of the guard. -/
theorem requireAuth_guard_spec_witness :
    mEx.RequireAuth (fun _ => .ok "ran") { authHeader := none }
      = .httpError 401 "Authorization header required"
    ∧ mEx.RequireAuth (fun _ => .ok "ran") { authHeader := some "Bearer x y" }
      = .httpError 401 "Invalid authorization header format"
    ∧ mEx.RequireAuth (fun _ => .ok "ran") { authHeader := some "Basic abc" }
      = .httpError 401 "Invalid authorization header format"
    ∧ mEx.RequireAuth (fun _ => .ok "ran") { authHeader := some "Bearer bad" }
      = .httpError 401 "Invalid or expired token"
    ∧ mEx.RequireAuth (fun _ => .ok "ran") { authHeader := some "Bearer tok" }
      = .ok "ran" := by
  refine ⟨?_, ?_, ?_, ?_, ?_⟩
  · exact (requireAuth_guard_spec mEx { authHeader := none }).1 rfl _
  · exact (requireAuth_guard_spec mEx { authHeader := some "Bearer x y" }).2.1
      ["Bearer", "x", "y"] rfl (by decide) (by decide) _
  · exact (requireAuth_guard_spec mEx { authHeader := some "Basic abc" }).2.2.1
      "Basic" "abc" rfl (by decide) _
  · exact (requireAuth_guard_spec mEx { authHeader := some "Bearer bad" }).2.2.2.1
      "bad" [.tokenMalformed] rfl rfl _
  · exact (((requireAuth_guard_spec mEx { authHeader := some "Bearer tok" }).2.2.2.2
      "tok" cEx rfl rfl _).1).trans rfl

/-- C3: on a request that passes authentication with claims `c` (so the
context carries role list `c.Roles`), `RequireRole role` invokes the wrapped
handler on the authenticated request exactly when `role` is a member of
`c.Roles` and answers 403 otherwise; `RequireAnyRole allowedRoles` invokes it
exactly when `c.Roles` intersects `allowedRoles` and answers 403 otherwise;
and both decision functions depend only on membership in the role list, so
reordering or duplicating roles cannot change the outcome. -/
theorem role_guards_membership (m : Middleware) (r : Request) (cred : String)
    (c : Claims) (role : String) (allowedRoles : List String)
    (hs : stringsSplitSpace r.headerGet = ["Bearer", cred])
    (hv : m.validate cred = .ok c) :
    (role ∈ c.Roles → ∀ next, m.RequireRole role next r = next (r.withAuthCtx c))
    ∧ (role ∉ c.Roles →
        ∀ next, m.RequireRole role next r = .httpError 403 "Insufficient permissions")
    ∧ ((∃ x, x ∈ c.Roles ∧ x ∈ allowedRoles) →
        ∀ next, m.RequireAnyRole allowedRoles next r = next (r.withAuthCtx c))
    ∧ ((¬ ∃ x, x ∈ c.Roles ∧ x ∈ allowedRoles) →
        ∀ next, m.RequireAnyRole allowedRoles next r = .httpError 403 "Insufficient permissions")
    ∧ (∀ R2 : List String, (∀ x, x ∈ c.Roles ↔ x ∈ R2) →
        hasRole c.Roles role = hasRole R2 role
        ∧ hasAnyRole c.Roles allowedRoles = hasAnyRole R2 allowedRoles) := by
  have boolOfIff : ∀ (b1 b2 : Bool), (b1 = true ↔ b2 = true) → b1 = b2 := by decide
  refine ⟨?_, ?_, ?_, ?_, ?_⟩
  · intro hmem next
    have h1 : m.RequireRole role next r = roleCheck role next (r.withAuthCtx c) :=
      requireAuth_validate_ok m (roleCheck role next) r cred c hs hv
    rw [h1]
    simp only [roleCheck, Request.withAuthCtx]
    rw [if_pos ((hasRole_iff c.Roles role).mpr hmem)]
  · intro hmem next
    have h1 : m.RequireRole role next r = roleCheck role next (r.withAuthCtx c) :=
      requireAuth_validate_ok m (roleCheck role next) r cred c hs hv
    rw [h1]
    simp only [roleCheck, Request.withAuthCtx]
    rw [if_neg (fun hh => hmem ((hasRole_iff c.Roles role).mp hh))]
  · intro hmem next
    have h1 : m.RequireAnyRole allowedRoles next r
        = anyRoleCheck allowedRoles next (r.withAuthCtx c) :=
      requireAuth_validate_ok m (anyRoleCheck allowedRoles next) r cred c hs hv
    rw [h1]
    simp only [anyRoleCheck, Request.withAuthCtx]
    rw [if_pos ((hasAnyRole_iff c.Roles allowedRoles).mpr hmem)]
  · intro hmem next
    have h1 : m.RequireAnyRole allowedRoles next r
        = anyRoleCheck allowedRoles next (r.withAuthCtx c) :=
      requireAuth_validate_ok m (anyRoleCheck allowedRoles next) r cred c hs hv
    rw [h1]
    simp only [anyRoleCheck, Request.withAuthCtx]
    rw [if_neg (fun hh => hmem ((hasAnyRole_iff c.Roles allowedRoles).mp hh))]
  · intro R2 hiff
    constructor
    · exact boolOfIff _ _
        ((hasRole_iff c.Roles role).trans ((hiff role).trans (hasRole_iff R2 role).symm))
    · refine boolOfIff _ _ ((hasAnyRole_iff c.Roles allowedRoles).trans
        (Iff.trans ?_ (hasAnyRole_iff R2 allowedRoles).symm))
      constructor
      · rintro ⟨x, hx, hx2⟩
        exact ⟨x, (hiff x).mp hx, hx2⟩
      · rintro ⟨x, hx, hx2⟩
        exact ⟨x, (hiff x).mpr hx, hx2⟩

/-- Witness for C3 at concrete guards: the token's roles are
`["user", "admin"]`; requiring `"admin"` invokes the handler, requiring
`"root"` gives 403, and any-of `["ops", "admin"]` invokes the handler. -/
theorem role_guards_membership_witness :
    mEx.RequireRole "admin" (fun _ => .ok "ran") { authHeader := some "Bearer tok" }
      = .ok "ran"
    ∧ mEx.RequireRole "root" (fun _ => .ok "ran") { authHeader := some "Bearer tok" }
      = .httpError 403 "Insufficient permissions"
    ∧ mEx.RequireAnyRole ["ops", "admin"] (fun _ => .ok "ran")
        { authHeader := some "Bearer tok" } = .ok "ran" := by
  refine ⟨?_, ?_, ?_⟩
  · exact ((role_guards_membership mEx { authHeader := some "Bearer tok" } "tok" cEx
      "admin" [] rfl rfl).1 (by decide) _).trans rfl
  · exact (role_guards_membership mEx { authHeader := some "Bearer tok" } "tok" cEx
      "root" [] rfl rfl).2.1 (by decide) _
  · exact ((role_guards_membership mEx { authHeader := some "Bearer tok" } "tok" cEx
      "root" ["ops", "admin"] rfl rfl).2.2.1 ⟨"admin", by decide, by decide⟩ _).trans rfl

/-- C9: in `RequireRole` and `RequireAnyRole` as constructed — the role check
always wrapped inside `RequireAuth` — the result of every request is either a
401 produced by the authentication layer or the value of the role-check
conditional taken on a context that does carry the claims' role list
(`(r.withAuthCtx c).ctx.roles = some c.Roles`); the `none` branch answering
500 "Unable to verify user roles" is never taken. -/
theorem guards_500_unreachable (m : Middleware) (role : String)
    (allowedRoles : List String) (r : Request) (next : Handler) :
    (∃ msg, m.RequireRole role next r = .httpError 401 msg
      ∧ m.RequireAnyRole allowedRoles next r = .httpError 401 msg)
    ∨ (∃ c : Claims, (r.withAuthCtx c).ctx.roles = some c.Roles
        ∧ m.RequireRole role next r =
            (if hasRole c.Roles role then next (r.withAuthCtx c)
             else .httpError 403 "Insufficient permissions")
        ∧ m.RequireAnyRole allowedRoles next r =
            (if hasAnyRole c.Roles allowedRoles then next (r.withAuthCtx c)
             else .httpError 403 "Insufficient permissions")) := by
  by_cases hh : r.headerGet = ""
  · left
    exact ⟨_, requireAuth_missing_header m (roleCheck role next) r hh,
      requireAuth_missing_header m (anyRoleCheck allowedRoles next) r hh⟩
  · rcases hs : stringsSplitSpace r.headerGet with _ | ⟨a, _ | ⟨b, _ | ⟨d, rest2⟩⟩⟩
    · left
      exact ⟨_, requireAuth_not_two m (roleCheck role next) r hh _ hs (by decide),
        requireAuth_not_two m (anyRoleCheck allowedRoles next) r hh _ hs (by decide)⟩
    · left
      refine ⟨_, requireAuth_not_two m (roleCheck role next) r hh _ hs ?_,
        requireAuth_not_two m (anyRoleCheck allowedRoles next) r hh _ hs ?_⟩
      · simp
      · simp
    · by_cases hsch : a = "Bearer"
      · subst hsch
        rcases hv : m.validate b with es | c
        · left
          exact ⟨_, requireAuth_validate_err m (roleCheck role next) r b es hs hv,
            requireAuth_validate_err m (anyRoleCheck allowedRoles next) r b es hs hv⟩
        · right
          refine ⟨c, rfl, ?_, ?_⟩
          · have h1 : m.RequireRole role next r = roleCheck role next (r.withAuthCtx c) :=
              requireAuth_validate_ok m (roleCheck role next) r b c hs hv
            rw [h1]
            simp only [roleCheck, Request.withAuthCtx]
          · have h1 : m.RequireAnyRole allowedRoles next r
                = anyRoleCheck allowedRoles next (r.withAuthCtx c) :=
              requireAuth_validate_ok m (anyRoleCheck allowedRoles next) r b c hs hv
            rw [h1]
            simp only [anyRoleCheck, Request.withAuthCtx]
      · left
        exact ⟨_, requireAuth_bad_scheme m (roleCheck role next) r a b hs hsch,
          requireAuth_bad_scheme m (anyRoleCheck allowedRoles next) r a b hs hsch⟩
    · left
      refine ⟨_, requireAuth_not_two m (roleCheck role next) r hh _ hs ?_,
        requireAuth_not_two m (anyRoleCheck allowedRoles next) r hh _ hs ?_⟩
      · intro hlen
        rw [List.length_cons, List.length_cons, List.length_cons] at hlen
        omega
      · intro hlen
        rw [List.length_cons, List.length_cons, List.length_cons] at hlen
        omega

/-- C10 counterexample: the guard built from an empty allowed-role list does
not answer 403 to every request — the concrete request with no
`Authorization` header is answered 401 by the authentication layer instead. -/
theorem anyrole_empty_counterexample :
    mEx.RequireAnyRole [] (fun _ => .ok "ran") { authHeader := none }
      = .httpError 401 "Authorization header required"
    ∧ mEx.RequireAnyRole [] (fun _ => .ok "ran") { authHeader := none }
      ≠ .httpError 403 "Insufficient permissions" := by
  constructor
  · rfl
  · intro h
    have h1 : mEx.RequireAnyRole [] (fun _ => .ok "ran") { authHeader := none }
        = .httpError 401 "Authorization header required" := rfl
    rw [h1] at h
    injection h with hstat hbody
    exact absurd hstat (by decide)

/-- C10 amended: no principal can satisfy `RequireAnyRole []` — every request
that passes authentication, whatever the roles carried by its valid token,
is answered 403; requests that fail authentication are answered 401 by the
authentication layer rather than 403. -/
theorem anyrole_empty_rejects_all (m : Middleware) (r : Request) (next : Handler)
    (cred : String) (c : Claims)
    (hs : stringsSplitSpace r.headerGet = ["Bearer", cred])
    (hv : m.validate cred = .ok c) :
    m.RequireAnyRole [] next r = .httpError 403 "Insufficient permissions" := by
  have h1 : m.RequireAnyRole [] next r = anyRoleCheck [] next (r.withAuthCtx c) :=
    requireAuth_validate_ok m (anyRoleCheck [] next) r cred c hs hv
  rw [h1]
  simp only [anyRoleCheck, Request.withAuthCtx]
  rw [if_neg]
  intro hh
  rcases (hasAnyRole_iff c.Roles []).mp hh with ⟨x, _, hx2⟩
  simp at hx2

/-- Witness for C10's amended statement: a request with a valid token whose
principal holds roles `["user", "admin"]` is still answered 403 by the
empty-allowed-list guard. -/
theorem anyrole_empty_rejects_all_witness :
    mEx.RequireAnyRole [] (fun _ => .ok "ran") { authHeader := some "Bearer tok" }
      = .httpError 403 "Insufficient permissions" :=
  anyrole_empty_rejects_all mEx { authHeader := some "Bearer tok" }
    (fun _ => .ok "ran") "tok" cEx rfl rfl
